import Mathlib

/-!
Verification of `coveralls/api.py` (coveralls-python).

This file shallowly embeds the report-assembly pipeline of the repository:
Python dictionaries become association lists of `JValue`s, the process
environment becomes an association list of strings, subprocess results become
an explicit `CmdResult` record, and Python exceptions become an `Except PyErr`
return channel.  Every definition is translated from `src/coveralls/api.py`;
line numbers in the doc comments refer to that file.
-/

/-- A Python value as it appears in the report data: JSON-representable values
plus (Python-2 style) byte strings, which is what the `UnicodeDecodeError`
handling in `create_report` is about. -/
inductive JValue where
  | null
  | bool (b : Bool)
  | num (n : Int)
  | str (s : String)
  | bytes (bs : List Nat)
  | arr (xs : List JValue)
  | obj (fields : List (String × JValue))
  deriving Repr, BEq

/-- A Python dict with string keys, as an insertion-ordered association list. -/
abbrev JDict := List (String × JValue)

/-- `d[k]` lookup (first binding wins; dicts built by our operations have no
duplicate keys). -/
def dictGet (d : JDict) (k : String) : Option JValue :=
  match d with
  | [] => none
  | (k', v) :: rest => if k' = k then some v else dictGet rest k

/-- `d.get(k, default)`. -/
def dictGetD (d : JDict) (k : String) (v₀ : JValue) : JValue :=
  (dictGet d k).getD v₀

/-- `k in d`. -/
def dictContains (d : JDict) (k : String) : Bool :=
  (dictGet d k).isSome

/-- `d[k] = v`: replace in place if the key exists, else append (Python dicts
keep insertion order). -/
def dictSet (d : JDict) (k : String) (v : JValue) : JDict :=
  match d with
  | [] => [(k, v)]
  | (k', v') :: rest =>
      if k' = k then (k', v) :: rest else (k', v') :: dictSet rest k v

/-- `d.update(e)`. -/
def dictUpdateAll (d e : JDict) : JDict :=
  e.foldl (fun acc kv => dictSet acc kv.1 kv.2) d

/-- Python truthiness of a value (`if x:`). -/
def pyTruthy : JValue → Bool
  | .null => false
  | .bool b => b
  | .num n => n != 0
  | .str s => !s.isEmpty
  | .bytes bs => !bs.isEmpty
  | .arr xs => !xs.isEmpty
  | .obj fs => !fs.isEmpty

/-- Truthiness of `d.get(k)`: `None` (absent) is falsy. -/
def pyTruthyO : Option JValue → Bool
  | none => false
  | some v => pyTruthy v

/-- The process environment: variable-name/value pairs. -/
abbrev Env := List (String × String)

/-- `os.environ.get(k)`. -/
def envGet (env : Env) (k : String) : Option String :=
  match env with
  | [] => none
  | (k', v) :: rest => if k' = k then some v else envGet rest k

/-- `os.environ.get(k, default)`. -/
def envGetD (env : Env) (k : String) (d : String) : String :=
  (envGet env k).getD d

/-- Truthiness of `os.environ.get(k)`: set and non-empty. -/
def envTruthy (env : Env) (k : String) : Bool :=
  !((envGet env k).getD "").isEmpty

/-- Truthiness of an optional string (e.g. a job id: `if job:`). -/
def strTruthy : Option String → Bool
  | none => false
  | some s => !s.isEmpty

/-- Python `str.lower()` (the values we care about are ASCII). -/
def pyLower (s : String) : String :=
  s.map Char.toLower

/-- Python's whitespace set for `str.split()` / `str.strip()`. -/
def pyIsSpace (c : Char) : Bool :=
  c = ' ' || c = '\t' || c = '\n' || c = '\r' || c = '\x0b' || c = '\x0c'

/-- Python `str.split()` with no argument: split on whitespace runs, dropping
empty fields. -/
def pySplitWs (s : String) : List String :=
  (s.split pyIsSpace).filter (fun t => !t.isEmpty)

/-- Python `str.strip()`. -/
def pyStrip (s : String) : String :=
  String.mk (((s.toList.dropWhile pyIsSpace).reverse.dropWhile pyIsSpace).reverse)

/-- Helper for `str.splitlines()`. -/
def pySplitlinesAux : List Char → List Char → List (List Char)
  | cur, [] => if cur.isEmpty then [] else [cur.reverse]
  | cur, '\r' :: '\n' :: rest => cur.reverse :: pySplitlinesAux [] rest
  | cur, '\n' :: rest => cur.reverse :: pySplitlinesAux [] rest
  | cur, '\r' :: rest => cur.reverse :: pySplitlinesAux [] rest
  | cur, c :: rest => pySplitlinesAux (c :: cur) rest

/-- Python `str.splitlines()` (no trailing empty line). -/
def pySplitlines (s : String) : List String :=
  (pySplitlinesAux [] s.toList).map String.mk

/-- Helper for splitting on a separator character. -/
def splitOnCharAux (sep : Char) : List Char → List Char → List (List Char)
  | cur, [] => [cur.reverse]
  | cur, c :: rest =>
      if c = sep then cur.reverse :: splitOnCharAux sep [] rest
      else splitOnCharAux sep (c :: cur) rest

/-- Python `str.split(sep)` for a one-character separator: `""` gives `[""]`,
trailing separators give trailing empty fields. -/
def pySplitChar (sep : Char) (s : String) : List String :=
  (splitOnCharAux sep [] s.toList).map String.mk

/-- Substring test, Python's `needle in haystack` for strings. -/
def strContains (hay needle : String) : Bool :=
  decide (needle.toList <:+: hay.toList)

/-- `a or b or ...`: first truthy (non-empty) string of the list, if any. -/
def firstTruthy : List (Option String) → Option String
  | [] => none
  | o :: rest =>
      match o with
      | some s => if s.isEmpty then firstTruthy rest else some s
      | none => firstTruthy rest

/-- The Python exception kinds that can arise in `api.py`. -/
inductive PyErr where
  | coverallsException (msg : String)
  | coverageException (msg : String)
  | unicodeDecodeError
  | typeError
  | keyError
  | indexError
  | attributeError
  deriving Repr, BEq, DecidableEq

/-- A finished subprocess: exit code and captured raw stdout/stderr bytes
(`subprocess.Popen` + `communicate`, api.py lines 304-306). -/
structure CmdResult where
  returncode : Int
  stdout : List Nat
  stderr : List Nat

/-- Is `b` a UTF-8 continuation byte? -/
def utf8Cont (b : Nat) : Bool :=
  0x80 <= b && b <= 0xBF

/-- Strict UTF-8 decoding to a list of code points (what Python's
`bytes.decode()` accepts: it rejects overlong forms, surrogates and
out-of-range points). -/
def utf8DecodeAux : List Nat → Option (List Nat)
  | [] => some []
  | b0 :: rest =>
    if b0 < 0x80 then
      (utf8DecodeAux rest).map (b0 :: ·)
    else if 0xC2 <= b0 && b0 <= 0xDF then
      match rest with
      | b1 :: rest' =>
          if utf8Cont b1 then
            (utf8DecodeAux rest').map (((b0 - 0xC0) * 64 + (b1 - 0x80)) :: ·)
          else none
      | _ => none
    else if 0xE0 <= b0 && b0 <= 0xEF then
      match rest with
      | b1 :: b2 :: rest' =>
          if utf8Cont b1 && utf8Cont b2 then
            let cp := (b0 - 0xE0) * 4096 + (b1 - 0x80) * 64 + (b2 - 0x80)
            if 0x800 <= cp && !(0xD800 <= cp && cp <= 0xDFFF) then
              (utf8DecodeAux rest').map (cp :: ·)
            else none
          else none
      | _ => none
    else if 0xF0 <= b0 && b0 <= 0xF4 then
      match rest with
      | b1 :: b2 :: b3 :: rest' =>
          if utf8Cont b1 && utf8Cont b2 && utf8Cont b3 then
            let cp := (b0 - 0xF0) * 262144 + (b1 - 0x80) * 4096 +
                      (b2 - 0x80) * 64 + (b3 - 0x80)
            if 0x10000 <= cp && cp <= 0x10FFFF then
              (utf8DecodeAux rest').map (cp :: ·)
            else none
          else none
      | _ => none
    else none

/-- `bytes.decode()` / `bytes.decode('utf-8')`: strict UTF-8 to a string. -/
def utf8Decode (bs : List Nat) : Option String :=
  (utf8DecodeAux bs).map fun cps => String.mk (cps.map Char.ofNat)

/-- Lower-case hex digit. -/
def hexDigit (n : Nat) : Char :=
  if n < 10 then Char.ofNat (48 + n) else Char.ofNat (87 + n)

/-- One byte inside a Python `bytes` repr, `quote` being the quote character
chosen for the repr. -/
def byteReprChar (quote : Nat) (b : Nat) : List Char :=
  if b = 0x5C then ['\\', '\\']
  else if b = quote then ['\\', Char.ofNat quote]
  else if b = 0x09 then ['\\', 't']
  else if b = 0x0A then ['\\', 'n']
  else if b = 0x0D then ['\\', 'r']
  else if 0x20 <= b && b < 0x7F then [Char.ofNat b]
  else ['\\', 'x', hexDigit (b / 16), hexDigit (b % 16)]

/-- Python `repr` of a `bytes` object, as produced by `'{}'.format(stdout)` in
the `run_command` error message: single quotes by default, double quotes when
the bytes contain `'` but not `"`. -/
def bytesRepr (bs : List Nat) : String :=
  if bs.contains 0x27 && !bs.contains 0x22 then
    String.mk ('b' :: '"' :: bs.flatMap (byteReprChar 0x22) ++ ['"'])
  else
    String.mk ('b' :: '\'' :: bs.flatMap (byteReprChar 0x27) ++ ['\''])

/-- The `CoverallsException` message raised by `run_command` on a non-zero
exit code (api.py lines 309-311). -/
def commandErrorMsg (r : CmdResult) : String :=
  "command return code " ++ toString r.returncode ++
    ", STDOUT: \"" ++ bytesRepr r.stdout ++ "\"\nSTDERR: \"" ++
    bytesRepr r.stderr ++ "\""

/-- `run_command` (api.py lines 303-316): raise on non-zero exit, otherwise
decode stdout as UTF-8 (the `except` clause decodes with the same codec, so a
non-decodable stdout raises `UnicodeDecodeError`). -/
def run_command (r : CmdResult) : Except PyErr String :=
  if r.returncode != 0 then
    .error (.coverallsException (commandErrorMsg r))
  else
    match utf8Decode r.stdout with
    | some s => .ok s
    | none => .error .unicodeDecodeError

/-- Everything external that one `Coveralls` run consumes: the process
environment, the coverage engine + reporter outcome (`get_coverage`,
api.py lines 219-229, whose interesting work happens in the external
`coverage` package and the reporter module), and the subprocess runner. -/
structure World where
  env : Env
  coverage : Except String (List JValue)
  exec : List String → CmdResult

/-- `get_coverage` (api.py lines 219-229): the engine either yields the list
of per-file records or raises `coverage.CoverageException`. -/
def get_coverage (w : World) : Except PyErr (List JValue) :=
  match w.coverage with
  | .ok files => .ok files
  | .error m => .error (.coverageException m)

/-- `git rev-parse --abbrev-ref HEAD` argument list (api.py line 253). -/
def gitRevParseCmd : List String := ["git", "rev-parse", "--abbrev-ref", "HEAD"]

/-- `git remote -v` argument list (api.py line 254). -/
def gitRemoteCmd : List String := ["git", "remote", "-v"]

/-- `git --no-pager log -1 --pretty=format:<fmt>` argument list
(api.py lines 294-295). -/
def gitlogCmd (fmt : String) : List String :=
  ["git", "--no-pager", "log", "-1", "--pretty=format:" ++ fmt]

/-- `gitlog` (api.py lines 293-300); the `str()` conversion is the identity
for a decoded string. -/
def gitlog (w : World) (fmt : String) : Except PyErr String :=
  run_command (w.exec (gitlogCmd fmt))

/-- One entry of the `remotes` comprehension (api.py lines 271-272):
`line.split()[0]` / `line.split()[1]`; too few tokens is an `IndexError`. -/
def parseRemoteLine (line : String) : Except PyErr JValue :=
  match pySplitWs line with
  | t0 :: t1 :: _ => .ok (.obj [("name", .str t0), ("url", .str t1)])
  | _ => .error .indexError

/-- Branch resolution inside `git_info` (api.py lines 266-270): first truthy
of the CI branch variables, else `TRAVIS_BRANCH` with the `rev-parse` output
as default. -/
def branchOf (env : Env) (rev : String) : String :=
  (firstTruthy [envGet env "CIRCLE_BRANCH",
                envGet env "APPVEYOR_REPO_BRANCH",
                envGet env "BUILDKITE_BRANCH",
                envGet env "CI_BRANCH"]).getD (envGetD env "TRAVIS_BRANCH" rev)

/-- The eight subprocess invocations `git_info` performs, in order. -/
def gitCommands : List (List String) :=
  [gitRevParseCmd, gitRemoteCmd, gitlogCmd "%H", gitlogCmd "%aN",
   gitlogCmd "%ae", gitlogCmd "%cN", gitlogCmd "%ce", gitlogCmd "%s"]

/-- `git_info` (api.py lines 231-274). -/
def git_info (w : World) : Except PyErr JDict := do
  let rev0 ← run_command (w.exec gitRevParseCmd)
  let rev := pyStrip rev0
  let remotesOut ← run_command (w.exec gitRemoteCmd)
  let remoteLines := pySplitlines remotesOut
  let hid ← gitlog w "%H"
  let authorName ← gitlog w "%aN"
  let authorEmail ← gitlog w "%ae"
  let committerName ← gitlog w "%cN"
  let committerEmail ← gitlog w "%ce"
  let message ← gitlog w "%s"
  let remotes ← (remoteLines.filter (fun l => strContains l "(fetch)")).mapM
      parseRemoteLine
  .ok [("git", .obj
    [("head", .obj
      [("id", .str hid),
       ("author_name", .str authorName),
       ("author_email", .str authorEmail),
       ("committer_name", .str committerName),
       ("committer_email", .str committerEmail),
       ("message", .str message)]),
     ("branch", .str (branchOf w.env rev)),
     ("remotes", .arr remotes)])]

/-- The per-instance state of a `Coveralls` object: its configuration dict,
the memoized report (`self._data`, `None` initially) and the token-required
flag. -/
structure CoverallsState where
  config : JDict
  data : Option JDict
  tokenRequired : Bool

/-- `load_config_from_appveyor` (api.py lines 65-68). -/
def load_config_from_appveyor (env : Env) :
    String × Option String × Option String :=
  ("appveyor", envGet env "APPVEYOR_BUILD_ID",
   envGet env "APPVEYOR_PULL_REQUEST_NUMBER")

/-- `load_config_from_buildkite` (api.py lines 70-72). -/
def load_config_from_buildkite (env : Env) :
    String × Option String × Option String :=
  ("buildkite", envGet env "BUILDKITE_JOB_ID", none)

/-- `load_config_from_circle` (api.py lines 74-77):
`os.environ.get('CI_PULL_REQUEST', '').split('/')[-1] or None`. -/
def load_config_from_circle (env : Env) :
    String × Option String × Option String :=
  let lastSeg := (pySplitChar '/' (envGetD env "CI_PULL_REQUEST" "")).getLastD ""
  let pr := if lastSeg.isEmpty then none else some lastSeg
  ("circle-ci", envGet env "CIRCLE_BUILD_NUM", pr)

/-- `load_config_from_travis` (api.py lines 79-81). -/
def load_config_from_travis (env : Env) :
    String × Option String × Option String :=
  ("travis-ci", envGet env "TRAVIS_JOB_ID", none)

/-- `load_config_from_unknown` (api.py lines 83-85). -/
def load_config_from_unknown : String × Option String × Option String :=
  ("coveralls-python", none, none)

/-- `load_config_from_ci_environment` (api.py lines 87-99).  Besides the
`(service_name, job_id, pull_request)` triple it returns the new value of
`self._token_required`, which the CircleCI and Travis branches set to
`False`. -/
def load_config_from_ci_environment (env : Env) (tokenRequired : Bool) :
    (String × Option String × Option String) × Bool :=
  if envTruthy env "APPVEYOR" then (load_config_from_appveyor env, tokenRequired)
  else if envTruthy env "BUILDKITE" then
    (load_config_from_buildkite env, tokenRequired)
  else if envTruthy env "CIRCLECI" then (load_config_from_circle env, false)
  else if envTruthy env "TRAVIS" then (load_config_from_travis env, false)
  else (load_config_from_unknown, tokenRequired)

/-- `load_config_from_environment` (api.py lines 101-107), as a function of
the current config dict. -/
def load_config_from_environment (config : JDict) (env : Env) : JDict :=
  let config :=
    match envGet env "COVERALLS_REPO_TOKEN" with
    | some t => if t.isEmpty then config else dictSet config "repo_token" (.str t)
    | none => config
  if pyLower (envGetD env "COVERALLS_PARALLEL" "") = "true" then
    dictSet config "parallel" (.bool true)
  else config

/-- The `CoverallsException` message of `ensure_token` (api.py lines 60-63),
with `config_filename` already substituted. -/
def ensureTokenMsg : String :=
  "Not on Travis or CircleCI. You have to provide either repo_token " ++
    "in .coveralls.yml or set the COVERALLS_REPO_TOKEN env var."

/-- `ensure_token` (api.py lines 56-63). -/
def ensure_token (s : CoverallsState) : Except PyErr Unit :=
  if pyTruthyO (dictGet s.config "repo_token") || !s.tokenRequired then .ok ()
  else .error (.coverallsException ensureTokenMsg)

/-- The service-field assignments of `Coveralls.__init__` (api.py lines
47-52): default the service name, and record job id and pull request when
truthy. -/
def applyServiceFields (config : JDict) (name : String) (job pr : Option String) :
    JDict :=
  let config := dictSet config "service_name"
    (dictGetD config "service_name" (.str name))
  let config :=
    if strTruthy job then dictSet config "service_job_id" (.str (job.getD ""))
    else config
  if strTruthy pr then
    dictSet config "service_pull_request" (.str (pr.getD ""))
  else config

/-- `Coveralls.__init__` (api.py lines 23-54): overlay the keyword arguments
(`kwargs`) on the parsed `.coveralls.yml` dict (`fileConfig`), apply the
environment overrides, record the CI service fields, then `ensure_token`;
the working report starts out uncached. -/
def coverallsInit (tokenRequired : Bool) (kwargs : JDict) (fileConfig : JDict)
    (env : Env) : Except PyErr CoverallsState :=
  let config := dictUpdateAll fileConfig kwargs
  let config := load_config_from_environment config env
  let ((name, job, pr), tokenRequired') :=
    load_config_from_ci_environment env tokenRequired
  let config := applyServiceFields config name job pr
  let s : CoverallsState :=
    { config := config, data := none, tokenRequired := tokenRequired' }
  match ensure_token s with
  | .ok _ => .ok s
  | .error e => .error e

/-- Four lower-case hex digits. -/
def hex4 (n : Nat) : List Char :=
  [hexDigit (n / 4096 % 16), hexDigit (n / 256 % 16),
   hexDigit (n / 16 % 16), hexDigit (n % 16)]

/-- `json.dumps` escaping of one code point with the default
`ensure_ascii=True`: named escapes, `\uXXXX` for other control or non-ASCII
points, surrogate pairs above the BMP. -/
def escapeCodepoint (n : Nat) : List Char :=
  if n = 0x22 then ['\\', '"']
  else if n = 0x5C then ['\\', '\\']
  else if n = 0x08 then ['\\', 'b']
  else if n = 0x09 then ['\\', 't']
  else if n = 0x0A then ['\\', 'n']
  else if n = 0x0C then ['\\', 'f']
  else if n = 0x0D then ['\\', 'r']
  else if n < 0x20 then '\\' :: 'u' :: hex4 n
  else if n < 0x7F then [Char.ofNat n]
  else if n < 0x10000 then '\\' :: 'u' :: hex4 n
  else
    ('\\' :: 'u' :: hex4 (0xD800 + (n - 0x10000) / 0x400)) ++
      ('\\' :: 'u' :: hex4 (0xDC00 + (n - 0x10000) % 0x400))

/-- A JSON string literal for a list of code points. -/
def jsonQuote (cps : List Nat) : List Char :=
  '"' :: cps.flatMap escapeCodepoint ++ ['"']

/-- Opening and closing braces, as characters. -/
def lbrace : Char := Char.ofNat 123

/-- Closing brace. -/
def rbrace : Char := Char.ofNat 125

mutual
/-- `json.dumps` with its default separators and `ensure_ascii`; a byte
string that is not valid UTF-8 raises `UnicodeDecodeError` (the Python-2
behaviour the `create_report` handler exists for). -/
def jdumpsE : JValue → Except PyErr (List Char)
  | .null => .ok "null".toList
  | .bool true => .ok "true".toList
  | .bool false => .ok "false".toList
  | .num n => .ok (toString n).toList
  | .str s => .ok (jsonQuote (s.toList.map Char.toNat))
  | .bytes bs =>
      match utf8DecodeAux bs with
      | some cps => .ok (jsonQuote cps)
      | none => .error .unicodeDecodeError
  | .arr xs =>
      match jdumpsArr xs with
      | .ok parts => .ok ('[' :: List.intercalate [',', ' '] parts ++ [']'])
      | .error e => .error e
  | .obj fs =>
      match jdumpsObj fs with
      | .ok parts => .ok (lbrace :: List.intercalate [',', ' '] parts ++ [rbrace])
      | .error e => .error e

/-- Serialize the elements of a JSON array. -/
def jdumpsArr : List JValue → Except PyErr (List (List Char))
  | [] => .ok []
  | x :: xs =>
      match jdumpsE x with
      | .ok cx =>
          match jdumpsArr xs with
          | .ok cxs => .ok (cx :: cxs)
          | .error e => .error e
      | .error e => .error e

/-- Serialize the `"key": value` members of a JSON object. -/
def jdumpsObj : List (String × JValue) → Except PyErr (List (List Char))
  | [] => .ok []
  | (k, v) :: fs =>
      match jdumpsE v with
      | .ok cv =>
          match jdumpsObj fs with
          | .ok cfs =>
              .ok ((jsonQuote (k.toList.map Char.toNat) ++ ':' :: ' ' :: cv) :: cfs)
          | .error e => .error e
      | .error e => .error e
end

/-- The literal the redaction pattern starts with:
`"repo_token": "` as characters. -/
def patChars : List Char :=
  ['"', 'r', 'e', 'p', 'o', '_', 't', 'o', 'k', 'e', 'n', '"', ':', ' ', '"']

/-- The replacement text of the redaction substitution:
`"repo_token": "[secure]"` as characters. -/
def replChars : List Char :=
  ['"', 'r', 'e', 'p', 'o', '_', 't', 'o', 'k', 'e', 'n', '"', ':', ' ', '"',
   '[', 's', 'e', 'c', 'u', 'r', 'e', ']', '"']

/-- The redaction marker itself, `[secure]` as characters. -/
def secureChars : List Char := ['[', 's', 'e', 'c', 'u', 'r', 'e', ']']

/-- After the opening quote of a candidate match and its first captured
character, scan for the closing quote of the lazy group `(.+?)`: the first
`"` closes the match, a newline kills it (`.` does not match newlines). -/
def scanClose : List Char → Option (List Char)
  | [] => none
  | c :: rest =>
      if c = '"' then some rest
      else if c = '\n' then none
      else scanClose rest

/-- Match the tail of `"repo_token": "(.+?)"` against `l`: at least one
non-newline captured character, then the closing quote; returns the input
remaining after the match. -/
def tryMatch : List Char → Option (List Char)
  | [] => none
  | c :: rest => if c = '\n' then none else scanClose rest

/-- The scan of `re.sub`, structurally recursive on a fuel bound: each step
consumes at least one input character, so any fuel at least the input length
computes the fixpoint. -/
def redactF : Nat → List Char → List Char
  | _, [] => []
  | 0, s => s
  | fuel + 1, c :: rest =>
      if patChars.isPrefixOf (c :: rest) then
        match tryMatch ((c :: rest).drop patChars.length) with
        | some rem => replChars ++ redactF fuel rem
        | none => c :: redactF fuel rest
      else c :: redactF fuel rest

/-- `re.sub(r'"repo_token": "(.+?)"', '"repo_token": "[secure]"', s)`
(api.py lines 161-162): replace every leftmost-shortest match, scanning left
to right and continuing after each replacement. -/
def redact (s : List Char) : List Char :=
  redactF s.length s

/-- The iterable views `list.extend` accepts, element by element: lists give
their elements, strings their one-character substrings, dicts their keys,
byte strings their bytes; other values are not iterable. -/
def pyIterate : JValue → Option (List JValue)
  | .arr xs => some xs
  | .str s => some (s.toList.map fun ch => .str (String.mk [ch]))
  | .obj fs => some (fs.map fun kv => .str kv.1)
  | .bytes bs => some (bs.map fun b => .num b)
  | _ => none

/-- The report dict as first assembled by `create_data` (api.py lines
206-208): coverage records, then the git overlay, then the config overlay. -/
def assembleData (s : CoverallsState) (w : World) : Except PyErr JDict := do
  let cov ← get_coverage w
  let git ← git_info w
  .ok (dictUpdateAll (dictUpdateAll [("source_files", .arr cov)] git) s.config)

/-- The non-memoized path of `create_data` (api.py lines 206-217).  The
returned flag records whether the "No data to be merged" warning was logged.
`self._data` is assigned before the `extend`, so the assembled dict is cached
even when merging raises. -/
def create_data_fresh (s : CoverallsState) (w : World) (extra : Option JDict) :
    Except PyErr JDict × CoverallsState × Bool :=
  match assembleData s w with
  | .error e => (.error e, s, false)
  | .ok d2 =>
      match extra with
      | some e =>
          if !e.isEmpty then
            if dictContains e "source_files" then
              match dictGet d2 "source_files" with
              | some (.arr xs) =>
                  match pyIterate (dictGetD e "source_files" .null) with
                  | some ys =>
                      let d3 := dictSet d2 "source_files" (.arr (xs ++ ys))
                      (.ok d3, { s with data := some d3 }, false)
                  | none => (.error .typeError, { s with data := some d2 }, false)
              | some _ =>
                  (.error .attributeError, { s with data := some d2 }, false)
              | none => (.error .keyError, { s with data := some d2 }, false)
            else (.ok d2, { s with data := some d2 }, true)
          else (.ok d2, { s with data := some d2 }, false)
      | none => (.ok d2, { s with data := some d2 }, false)

/-- `create_data` (api.py lines 182-217): `if self._data: return self._data`
(a cached dict is returned as-is; the cache is only bypassed while unset or
empty, and the assembled dict is never empty), else assemble and merge. -/
def create_data (s : CoverallsState) (w : World) (extra : Option JDict) :
    Except PyErr JDict × CoverallsState × Bool :=
  match s.data with
  | some d => if !d.isEmpty then (.ok d, s, false) else create_data_fresh s w extra
  | none => create_data_fresh s w extra

/-- Does `json.dumps` fail on this value with a `UnicodeDecodeError`
(the only exception our serializer raises)? -/
def dumpFails (v : JValue) : Bool :=
  match jdumpsE v with
  | .error _ => true
  | .ok _ => false

/-- The loop of `debug_bad_encoding` (api.py lines 279-285): the set of
`name` values of records any of whose field values fails to encode, in first-
at-fault order.  `.values()` on a non-dict record is an `AttributeError`, a
faulty record without `name` a `KeyError`. -/
def debugScan : List JValue → List JValue → Except PyErr (List JValue)
  | [], acc => .ok acc
  | rec :: rest, acc =>
      match rec with
      | .obj fs =>
          if fs.any (fun kv => dumpFails kv.2) then
            match dictGet fs "name" with
            | some nm =>
                debugScan rest (if acc.contains nm then acc else acc ++ [nm])
            | none => .error .keyError
          else debugScan rest acc
      | _ => .error .attributeError

/-- `debug_bad_encoding` (api.py lines 276-290): re-encode each field of each
record of `data['source_files']` individually and collect the at-fault file
names (the logged hint). -/
def debug_bad_encoding (data : JDict) : Except PyErr (List JValue) :=
  match dictGet data "source_files" with
  | none => .error .keyError
  | some v =>
      match pyIterate v with
      | none => .error .typeError
      | some recs => debugScan recs []

/-- What one `create_report` call produced: the returned string or raised
exception, the instance state afterwards, the at-fault-file hint when the
diagnostic pass ran, and the redacted string handed to `log.debug`. -/
structure ReportOutcome where
  result : Except PyErr (List Char)
  state : CoverallsState
  diagHint : Option (List JValue)
  logString : Option (List Char)

/-- `create_report` (api.py lines 150-169): serialize `create_data()`; on
`UnicodeDecodeError` run the diagnostic pass and re-raise; on success log the
redacted string. -/
def create_report (s : CoverallsState) (w : World) : ReportOutcome :=
  let (r, s', _) := create_data s w none
  match r with
  | .error e => ⟨.error e, s', none, none⟩
  | .ok data =>
      match jdumpsE (.obj data) with
      | .error .unicodeDecodeError =>
          match debug_bad_encoding data with
          | .ok names => ⟨.error .unicodeDecodeError, s', some names, none⟩
          | .error e2 => ⟨.error e2, s', none, none⟩
      | .error e => ⟨.error e, s', none, none⟩
      | .ok js => ⟨.ok js, s', none, some (redact js)⟩

/-- The HTTP response `requests.post` yields in `wear`: status, body text,
and the parsed JSON body (`none` when `response.json()` raises
`ValueError`). -/
structure HttpResponse where
  statusCode : Nat
  text : String
  jsonBody : Option JValue

/-- `wear` (api.py lines 131-148).  The first component of the pair is the
payload posted to the API endpoint (`none` means no network call was made),
the second the returned result object.  Only `coverage.CoverageException`
is caught; other exceptions propagate. -/
def wear (s : CoverallsState) (w : World) (dryRun : Bool)
    (resp : HttpResponse) : Except PyErr (Option (List Char) × JValue) :=
  match (create_report s w).result with
  | .error (.coverageException m) =>
      .ok (none, .obj [("message", .str ("Failure to gather coverage: " ++ m))])
  | .error e => .error e
  | .ok js =>
      if dryRun then .ok (none, .obj [])
      else
        match resp.jsonBody with
        | some j => .ok (some js, j)
        | none =>
            .ok (some js, .obj [("message",
              .str ("Failure to submit data. Response [" ++
                toString resp.statusCode ++ "]: " ++ resp.text))])

theorem dictGet_dictSet_self (d : JDict) (k : String) (v : JValue) :
    dictGet (dictSet d k v) k = some v := by
  induction d with
  | nil => simp [dictSet, dictGet]
  | cons kv rest ih =>
      obtain ⟨k', v'⟩ := kv
      by_cases h : k' = k <;> simp [dictSet, dictGet, h, ih]

theorem dictGet_dictSet_ne (d : JDict) (k k' : String) (v : JValue)
    (h : k' ≠ k) : dictGet (dictSet d k v) k' = dictGet d k' := by
  induction d with
  | nil => simp [dictSet, dictGet, Ne.symm h]
  | cons kv rest ih =>
      obtain ⟨k₀, v₀⟩ := kv
      by_cases h0 : k₀ = k
      · subst h0
        simp [dictSet, dictGet, Ne.symm h]
      · simp [dictSet, dictGet, h0, ih]

theorem dictSet_ne_nil (d : JDict) (k : String) (v : JValue) :
    dictSet d k v ≠ [] := by
  cases d with
  | nil => simp [dictSet]
  | cons kv rest => obtain ⟨k', v'⟩ := kv; by_cases h : k' = k <;> simp [dictSet, h]

theorem dictUpdateAll_ne_nil (e : JDict) :
    ∀ d : JDict, d ≠ [] → dictUpdateAll d e ≠ [] := by
  induction e with
  | nil => intro d h; simpa [dictUpdateAll] using h
  | cons kv rest ih =>
      intro d h
      have : dictUpdateAll d (kv :: rest) = dictUpdateAll (dictSet d kv.1 kv.2) rest := rfl
      rw [this]
      exact ih _ (dictSet_ne_nil d kv.1 kv.2)

theorem assembleData_ne_nil (s : CoverallsState) (w : World) (d : JDict)
    (h : assembleData s w = .ok d) : d ≠ [] := by
  unfold assembleData at h
  cases hcov : get_coverage w with
  | error e => rw [hcov] at h; simp [Bind.bind, Except.bind] at h
  | ok cov =>
      rw [hcov] at h
      cases hgit : git_info w with
      | error e => rw [hgit] at h; simp [Bind.bind, Except.bind] at h
      | ok git =>
          rw [hgit] at h
          simp only [Bind.bind, Except.bind, Except.ok.injEq, Except.pure] at h
          have h1 : dictUpdateAll [("source_files", JValue.arr cov)] git ≠ [] :=
            dictUpdateAll_ne_nil git _ (by simp)
          have h2 := dictUpdateAll_ne_nil s.config _ h1
          cases h
          exact h2

theorem create_data_fresh_caches (s : CoverallsState) (w : World)
    (extra : Option JDict) (d : JDict) (s' : CoverallsState) (warn : Bool)
    (h : create_data_fresh s w extra = (.ok d, s', warn)) :
    s'.data = some d ∧ d ≠ [] := by
  unfold create_data_fresh at h
  cases hass : assembleData s w with
  | error e => rw [hass] at h; simp at h
  | ok d2 =>
      rw [hass] at h
      have hd2 : d2 ≠ [] := assembleData_ne_nil s w d2 hass
      cases extra with
      | none => simp at h; obtain ⟨h1, h2, _⟩ := h; subst h1; subst h2; exact ⟨rfl, hd2⟩
      | some e =>
          simp only at h
          by_cases he : e.isEmpty
          · simp [he] at h
            obtain ⟨h1, h2, _⟩ := h; subst h1; subst h2; exact ⟨rfl, hd2⟩
          · simp [he] at h
            by_cases hc : dictContains e "source_files"
            · simp [hc] at h
              cases hsf : dictGet d2 "source_files" with
              | none => rw [hsf] at h; simp at h
              | some vsf =>
                  rw [hsf] at h
                  cases vsf with
                  | arr xs =>
                      cases hit : pyIterate (dictGetD e "source_files" .null) with
                      | none => rw [hit] at h; simp at h
                      | some ys =>
                          rw [hit] at h
                          simp at h
                          obtain ⟨h1, h2, _⟩ := h
                          subst h1; subst h2
                          exact ⟨rfl, dictSet_ne_nil _ _ _⟩
                  | null => simp at h
                  | bool b => simp at h
                  | num n => simp at h
                  | str s => simp at h
                  | bytes bs => simp at h
                  | obj fs => simp at h
            · simp [hc] at h
              obtain ⟨h1, h2, _⟩ := h; subst h1; subst h2; exact ⟨rfl, hd2⟩

/-- C1: the report build is memoized per instance.  Whenever a `create_data`
call succeeds with report `d` and instance state `s'`, any later call on `s'`
returns exactly the cached `d` with the state unchanged (and no merge
warning), regardless of the world and of the extra merge payload passed. -/
theorem create_data_memoized (s : CoverallsState) (w : World)
    (extra : Option JDict) (d : JDict) (s' : CoverallsState) (warn : Bool)
    (h : create_data s w extra = (.ok d, s', warn))
    (w' : World) (extra' : Option JDict) :
    create_data s' w' extra' = (.ok d, s', false) := by
  have key : s'.data = some d ∧ d ≠ [] := by
    unfold create_data at h
    cases hd : s.data with
    | none => rw [hd] at h; exact create_data_fresh_caches s w extra d s' warn h
    | some d0 =>
        rw [hd] at h
        by_cases h0 : d0.isEmpty
        · simp [h0] at h
          exact create_data_fresh_caches s w extra d s' warn h
        · simp [h0] at h
          obtain ⟨h1, h2, _⟩ := h
          subst h1
          refine ⟨?_, ?_⟩
          · rw [← h2, hd]
          · simpa [List.isEmpty_iff] using h0
  obtain ⟨hdata, hne⟩ := key
  unfold create_data
  rw [hdata]
  simp [List.isEmpty_iff, hne]

/-- A concrete world: no CI variables, an empty coverage run, and a git
executable that exits 0 printing `x`. -/
def cdW0 : World :=
  { env := [], coverage := .ok [], exec := fun _ => ⟨0, [120], []⟩ }

/-- A concrete freshly-constructed instance state. -/
def cdS0 : CoverallsState :=
  { config := [("repo_token", .str "abc123")], data := none, tokenRequired := true }

/-- The report the first `create_data` call on `cdS0` computes. -/
def cdD0 : JDict :=
  match (create_data cdS0 cdW0 none).1 with
  | .ok d => d
  | .error _ => []

/-- The instance state after the first `create_data` call on `cdS0`. -/
def cdS1 : CoverallsState := (create_data cdS0 cdW0 none).2.1

theorem create_data_memoized_witness :
    create_data cdS1 cdW0 (some [("other", .null)]) = (.ok cdD0, cdS1, false) :=
  create_data_memoized cdS0 cdW0 none cdD0 cdS1 false rfl cdW0
    (some [("other", .null)])

/-- C2: on the first build, a truthy extra payload with a `source_files` list
gets its entries appended after the existing entries (nothing is removed or
deduplicated, so the length is the sum); a truthy payload without
`source_files` leaves the assembled report unchanged and logs the warning. -/
theorem create_data_merge (s : CoverallsState) (w : World) (e : JDict)
    (d2 : JDict) (xs ys : List JValue)
    (hs : s.data = none)
    (hass : assembleData s w = .ok d2)
    (hne : e ≠ [])
    (hxs : dictGet d2 "source_files" = some (.arr xs))
    (hys : dictContains e "source_files" = true →
      dictGet e "source_files" = some (.arr ys)) :
    create_data s w (some e) =
      (if dictContains e "source_files" then
        (.ok (dictSet d2 "source_files" (.arr (xs ++ ys))),
         { s with data := some (dictSet d2 "source_files" (.arr (xs ++ ys))) },
         false)
      else (.ok d2, { s with data := some d2 }, true)) ∧
    (xs ++ ys).length = xs.length + ys.length := by
  constructor
  · unfold create_data
    rw [hs]
    unfold create_data_fresh
    rw [hass]
    have hne' : e.isEmpty = false := by
      cases e with
      | nil => exact absurd rfl hne
      | cons a l => rfl
    simp only [hne', Bool.not_false, if_true]
    by_cases hc : dictContains e "source_files"
    · rw [if_pos hc, if_pos hc, hxs]
      have : dictGetD e "source_files" .null = .arr ys := by
        unfold dictGetD
        rw [hys hc]
        rfl
      rw [this]
      rfl
    · rw [if_neg hc, if_neg hc]
  · exact List.length_append xs ys

/-- A merge payload carrying one file record. -/
def mergeRec : JValue := .obj [("name", .str "x.py"), ("coverage", .arr [])]

/-- A concrete extra-merge payload with a `source_files` field. -/
def mergeExtra : JDict := [("source_files", .arr [mergeRec])]

theorem create_data_merge_witness :
    create_data cdS0 cdW0 (some mergeExtra) =
      (.ok (dictSet cdD0 "source_files" (.arr ([] ++ [mergeRec]))),
       { cdS0 with data := some (dictSet cdD0 "source_files" (.arr ([] ++ [mergeRec]))) },
       false) ∧ (([] : List JValue) ++ [mergeRec]).length = 0 + 1 := by
  have h := create_data_merge cdS0 cdW0 mergeExtra cdD0 [] [mergeRec] rfl rfl
    (by simp [mergeExtra]) rfl (fun _ => rfl)
  refine ⟨?_, by simp⟩
  have hc : dictContains mergeExtra "source_files" = true := rfl
  rw [h.1, if_pos hc]

/-- C4: provider detection checks the marker variables in the fixed order
AppVeyor, Buildkite, CircleCI, Travis; the first set (non-empty) marker fully
determines the returned triple — fixed service name, job id from that
provider's own variable — regardless of any other provider's variables, and
with no marker the result is `coveralls-python` with absent job and PR ids. -/
theorem ci_detection (env : Env) (tr : Bool) :
    (load_config_from_ci_environment env tr).1 =
      if envTruthy env "APPVEYOR" then
        ("appveyor", envGet env "APPVEYOR_BUILD_ID",
         envGet env "APPVEYOR_PULL_REQUEST_NUMBER")
      else if envTruthy env "BUILDKITE" then
        ("buildkite", envGet env "BUILDKITE_JOB_ID", none)
      else if envTruthy env "CIRCLECI" then
        ("circle-ci", envGet env "CIRCLE_BUILD_NUM",
         (load_config_from_circle env).2.2)
      else if envTruthy env "TRAVIS" then
        ("travis-ci", envGet env "TRAVIS_JOB_ID", none)
      else ("coveralls-python", none, none) := by
  unfold load_config_from_ci_environment
  by_cases hA : envTruthy env "APPVEYOR"
  · simp [hA, load_config_from_appveyor]
  · by_cases hB : envTruthy env "BUILDKITE"
    · simp [hA, hB, load_config_from_buildkite]
    · by_cases hC : envTruthy env "CIRCLECI"
      · simp [hA, hB, hC, load_config_from_circle]
      · by_cases hT : envTruthy env "TRAVIS"
        · simp [hA, hB, hC, hT, load_config_from_travis]
        · simp [hA, hB, hC, hT, load_config_from_unknown]

/-- C10: the environment loader sets `parallel` to `True` exactly when
`COVERALLS_PARALLEL` lower-cases to `true`; any other value (or no value)
leaves the `parallel` key exactly as it was — in particular it is never set
to `False` — and every key other than `repo_token` and `parallel` is
untouched by this loader. -/
theorem parallel_env_flag (cfg : JDict) (env : Env) :
    (dictGet (load_config_from_environment cfg env) "parallel" =
      if pyLower (envGetD env "COVERALLS_PARALLEL" "") = "true"
      then some (.bool true) else dictGet cfg "parallel") ∧
    (∀ k, k ≠ "repo_token" → k ≠ "parallel" →
      dictGet (load_config_from_environment cfg env) k = dictGet cfg k) := by
  unfold load_config_from_environment
  cases htok : envGet env "COVERALLS_REPO_TOKEN" with
  | none =>
      constructor
      · by_cases hp : pyLower (envGetD env "COVERALLS_PARALLEL" "") = "true"
        · simp [hp, dictGet_dictSet_self]
        · simp [hp]
      · intro k hk1 hk2
        by_cases hp : pyLower (envGetD env "COVERALLS_PARALLEL" "") = "true"
        · simp [hp, dictGet_dictSet_ne _ _ _ _ hk2]
        · simp [hp]
  | some t =>
      by_cases hte : t.isEmpty
      · constructor
        · by_cases hp : pyLower (envGetD env "COVERALLS_PARALLEL" "") = "true"
          · simp [hte, hp, dictGet_dictSet_self]
          · simp [hte, hp]
        · intro k hk1 hk2
          by_cases hp : pyLower (envGetD env "COVERALLS_PARALLEL" "") = "true"
          · simp [hte, hp, dictGet_dictSet_ne _ _ _ _ hk2]
          · simp [hte, hp]
      · have hrp : ("parallel" : String) ≠ "repo_token" := by decide
        constructor
        · by_cases hp : pyLower (envGetD env "COVERALLS_PARALLEL" "") = "true"
          · simp [hte, hp, dictGet_dictSet_self]
          · simp [hte, hp, dictGet_dictSet_ne _ _ _ _ hrp]
        · intro k hk1 hk2
          by_cases hp : pyLower (envGetD env "COVERALLS_PARALLEL" "") = "true"
          · simp [hte, hp, dictGet_dictSet_ne _ _ _ _ hk2,
              dictGet_dictSet_ne _ _ _ _ hk1]
          · simp [hte, hp, dictGet_dictSet_ne _ _ _ _ hk1]

theorem parallel_env_flag_witness :
    dictGet (load_config_from_environment [("service_name", .str "x")]
      [("COVERALLS_PARALLEL", "TRUE")]) "service_name" =
      dictGet [("service_name", .str "x")] "service_name" :=
  (parallel_env_flag [("service_name", .str "x")]
    [("COVERALLS_PARALLEL", "TRUE")]).2 "service_name"
    (by decide) (by decide)

/-- The pull-request id as claim C6 words it, following the spec: split the
variable's value on `/` and take the last non-empty segment; absent when the
variable is unset or no non-empty segment exists.  This definition follows
the specification text and exists to be compared against
`load_config_from_circle`, which was translated from the source. -/
def spec_circle_pr (v : Option String) : Option String :=
  match v with
  | none => none
  | some s => (pySplitChar '/' s).reverse.find? (fun seg => !seg.isEmpty)

/-- An environment whose PR variable ends in a slash. -/
def circleEnvCex : Env := [("CI_PULL_REQUEST", "pull/1/")]

/-- C6 counterexample: for `CI_PULL_REQUEST = "pull/1/"` the code returns no
pull-request id, while the claimed rule (last non-empty segment) yields
`"1"`. -/
theorem circle_pr_cex :
    (load_config_from_circle circleEnvCex).2.2 = none ∧
    spec_circle_pr (envGet circleEnvCex "CI_PULL_REQUEST") = some "1" := by
  constructor
  · rfl
  · rfl

/-- C6 amended: under CircleCI detection the pull-request id is the final
`/`-separated segment of `CI_PULL_REQUEST` (unset read as the empty string);
it is that segment when non-empty and absent when the final segment is empty
— in particular the id returned is never the empty string. -/
theorem circle_pr_amended (env : Env) :
    ((load_config_from_circle env).2.2 =
      (if ((pySplitChar '/' (envGetD env "CI_PULL_REQUEST" "")).getLastD "").isEmpty
       then none
       else some ((pySplitChar '/' (envGetD env "CI_PULL_REQUEST" "")).getLastD ""))) ∧
    (∀ p, (load_config_from_circle env).2.2 = some p →
      !p.isEmpty ∧
        p = (pySplitChar '/' (envGetD env "CI_PULL_REQUEST" "")).getLastD "") := by
  constructor
  · rfl
  · intro p hp
    unfold load_config_from_circle at hp
    simp only at hp
    by_cases h : ((pySplitChar '/' (envGetD env "CI_PULL_REQUEST" "")).getLastD "").isEmpty
    · rw [if_pos h] at hp; cases hp
    · rw [if_neg h] at hp
      cases hp
      exact ⟨by simpa using h, rfl⟩

/-- An environment with a well-formed PR URL. -/
def circleEnvOk : Env := [("CI_PULL_REQUEST", "pull/7")]

theorem circle_pr_amended_witness :
    !(("7" : String).isEmpty) ∧
      ("7" : String) =
        (pySplitChar '/' (envGetD circleEnvOk "CI_PULL_REQUEST" "")).getLastD "" :=
  (circle_pr_amended circleEnvOk).2 "7" rfl

/-- Is the detected CI provider one that disables the token requirement
(CircleCI or Travis, reached only when neither the AppVeyor nor the
Buildkite marker fires first)? -/
def detectedCT (env : Env) : Bool :=
  !envTruthy env "APPVEYOR" && !envTruthy env "BUILDKITE" &&
    (envTruthy env "CIRCLECI" || envTruthy env "TRAVIS")

theorem ci_token_required (env : Env) (tr : Bool) :
    (load_config_from_ci_environment env tr).2 = (!detectedCT env && tr) := by
  unfold load_config_from_ci_environment detectedCT
  by_cases hA : envTruthy env "APPVEYOR"
  · simp [hA]
  · by_cases hB : envTruthy env "BUILDKITE"
    · simp [hA, hB]
    · by_cases hC : envTruthy env "CIRCLECI"
      · simp [hA, hB, hC]
      · by_cases hT : envTruthy env "TRAVIS"
        · simp [hA, hB, hC, hT]
        · simp [hA, hB, hC, hT]

theorem applyServiceFields_repo_token (config : JDict) (name : String)
    (job pr : Option String) :
    dictGet (applyServiceFields config name job pr) "repo_token" =
      dictGet config "repo_token" := by
  unfold applyServiceFields
  have h1 : ("repo_token" : String) ≠ "service_name" := by decide
  have h2 : ("repo_token" : String) ≠ "service_job_id" := by decide
  have h3 : ("repo_token" : String) ≠ "service_pull_request" := by decide
  by_cases hj : strTruthy job <;> by_cases hp : strTruthy pr <;>
    simp [hj, hp, dictGet_dictSet_ne _ _ _ _ h1, dictGet_dictSet_ne _ _ _ _ h2,
      dictGet_dictSet_ne _ _ _ _ h3]

/-- C3: construction fails with the `ensure_token` configuration error
exactly when the effective configuration (file config overlaid with keyword
arguments and the environment override) carries no truthy `repo_token`, the
detected CI provider is not CircleCI or Travis, and the caller did not opt
out with `token_required=False`.  In particular a present repo token, a
CircleCI/Travis detection, or `token_required=False` each guarantee that
construction does not raise, and the check happens inside `__init__`, before
any coverage or git work. -/
theorem init_token_check (tr : Bool) (kwargs fileConfig : JDict) (env : Env) :
    coverallsInit tr kwargs fileConfig env =
        .error (.coverallsException ensureTokenMsg) ↔
      (pyTruthyO (dictGet (load_config_from_environment
          (dictUpdateAll fileConfig kwargs) env) "repo_token") = false ∧
        detectedCT env = false ∧ tr = true) := by
  have hci := ci_token_required env tr
  unfold coverallsInit
  rcases hres : load_config_from_ci_environment env tr with ⟨⟨name, job, pr⟩, tr'⟩
  rw [hres] at hci
  simp only at hci
  subst hci
  simp only [ensure_token, applyServiceFields_repo_token]
  by_cases htok : pyTruthyO (dictGet (load_config_from_environment
      (dictUpdateAll fileConfig kwargs) env) "repo_token")
  · simp [htok]
  · by_cases hct : detectedCT env
    · simp [htok, hct]
    · cases tr <;> simp [htok, hct]

theorem run_command_ok_rc (r : CmdResult) (s : String)
    (h : run_command r = .ok s) : r.returncode = 0 := by
  unfold run_command at h
  by_cases h0 : r.returncode = 0
  · exact h0
  · simp [h0] at h

theorem gitInfo_ok_all_zero (w : World) (d : JDict) (h : git_info w = .ok d) :
    ∀ c ∈ gitCommands, (w.exec c).returncode = 0 := by
  unfold git_info at h
  simp only [gitlog, Bind.bind, Except.bind] at h
  cases h1 : run_command (w.exec gitRevParseCmd) with
  | error e => rw [h1] at h; simp at h
  | ok rev0 =>
  rw [h1] at h
  cases h2 : run_command (w.exec gitRemoteCmd) with
  | error e => rw [h2] at h; simp at h
  | ok remotesOut =>
  rw [h2] at h
  cases h3 : run_command (w.exec (gitlogCmd "%H")) with
  | error e => rw [h3] at h; simp at h
  | ok hid =>
  rw [h3] at h
  cases h4 : run_command (w.exec (gitlogCmd "%aN")) with
  | error e => rw [h4] at h; simp at h
  | ok an =>
  rw [h4] at h
  cases h5 : run_command (w.exec (gitlogCmd "%ae")) with
  | error e => rw [h5] at h; simp at h
  | ok ae =>
  rw [h5] at h
  cases h6 : run_command (w.exec (gitlogCmd "%cN")) with
  | error e => rw [h6] at h; simp at h
  | ok cn =>
  rw [h6] at h
  cases h7 : run_command (w.exec (gitlogCmd "%ce")) with
  | error e => rw [h7] at h; simp at h
  | ok ce =>
  rw [h7] at h
  cases h8 : run_command (w.exec (gitlogCmd "%s")) with
  | error e => rw [h8] at h; simp at h
  | ok msg =>
  intro c hc
  simp only [gitCommands, List.mem_cons, List.not_mem_nil, or_false] at hc
  rcases hc with hc | hc | hc | hc | hc | hc | hc | hc <;> subst hc
  · exact run_command_ok_rc _ _ h1
  · exact run_command_ok_rc _ _ h2
  · exact run_command_ok_rc _ _ h3
  · exact run_command_ok_rc _ _ h4
  · exact run_command_ok_rc _ _ h5
  · exact run_command_ok_rc _ _ h6
  · exact run_command_ok_rc _ _ h7
  · exact run_command_ok_rc _ _ h8

/-- C7: a non-zero subprocess exit makes `run_command` raise a
`CoverallsException` whose message carries the exit code and the captured
stdout and stderr, while a zero exit returns the decoded stdout (or raises
the decode error); and a successful `git_info` implies every one of its
eight subprocess invocations exited zero, so any non-zero exit aborts the
report build with no partial git info. -/
theorem run_command_spec (r : CmdResult) (w : World) (d : JDict) :
    (run_command r =
      (if r.returncode = 0 then
        (match utf8Decode r.stdout with
         | some s => Except.ok s
         | none => Except.error PyErr.unicodeDecodeError)
       else Except.error (.coverallsException (commandErrorMsg r)))) ∧
    ((toString r.returncode).toList <:+: (commandErrorMsg r).toList) ∧
    ((bytesRepr r.stdout).toList <:+: (commandErrorMsg r).toList) ∧
    ((bytesRepr r.stderr).toList <:+: (commandErrorMsg r).toList) ∧
    (git_info w = .ok d → ∀ c ∈ gitCommands, (w.exec c).returncode = 0) := by
  refine ⟨?_, ?_, ?_, ?_, gitInfo_ok_all_zero w d⟩
  · by_cases h0 : r.returncode = 0 <;> simp [run_command, h0]
  · refine ⟨"command return code ".toList,
      (", STDOUT: \"" ++ bytesRepr r.stdout ++ "\"\nSTDERR: \"" ++
        bytesRepr r.stderr ++ "\"").toList, ?_⟩
    simp [commandErrorMsg, String.toList]
  · refine ⟨("command return code " ++ toString r.returncode ++
      ", STDOUT: \"").toList,
      ("\"\nSTDERR: \"" ++ bytesRepr r.stderr ++ "\"").toList, ?_⟩
    simp [commandErrorMsg, String.toList]
  · refine ⟨("command return code " ++ toString r.returncode ++
      ", STDOUT: \"" ++ bytesRepr r.stdout ++ "\"\nSTDERR: \"").toList,
      ("\"" : String).toList, ?_⟩
    simp [commandErrorMsg, String.toList]

/-- The git-info dict computed in the concrete world `cdW0`. -/
def gitD0 : JDict :=
  match git_info cdW0 with
  | .ok d => d
  | .error _ => []

theorem run_command_spec_witness :
    (cdW0.exec gitRevParseCmd).returncode = 0 :=
  (run_command_spec ⟨1, [104], [105]⟩ cdW0 gitD0).2.2.2.2 rfl
    gitRevParseCmd (by simp [gitCommands])

/-- C8: when the coverage engine has no data (it raises its coverage
exception during report creation on a fresh instance), `wear` does not
propagate the exception: it returns a `message` result object and performs no
network submission (posted payload `none`). -/
theorem wear_coverage_failure (s : CoverallsState) (w : World) (dryRun : Bool)
    (resp : HttpResponse) (m : String)
    (hs : s.data = none) (hcov : w.coverage = .error m) :
    (create_report s w).result = .error (.coverageException m) ∧
    wear s w dryRun resp =
      .ok (none,
        .obj [("message", .str ("Failure to gather coverage: " ++ m))]) := by
  have hrep : (create_report s w).result = .error (.coverageException m) := by
    unfold create_report create_data create_data_fresh assembleData get_coverage
    rw [hs, hcov]
    rfl
  refine ⟨hrep, ?_⟩
  unfold wear
  rw [hrep]

/-- A world whose coverage engine raises. -/
def failW : World :=
  { env := [], coverage := .error "no data", exec := fun _ => ⟨0, [], []⟩ }

theorem wear_coverage_failure_witness :
    (create_report cdS0 failW).result =
        .error (.coverageException "no data") ∧
    wear cdS0 failW false ⟨500, "x", none⟩ =
      .ok (none,
        .obj [("message", .str ("Failure to gather coverage: " ++ "no data"))]) :=
  wear_coverage_failure cdS0 failW false ⟨500, "x", none⟩ "no data" rfl rfl

/-- C9: when serialization of the assembled report fails with the text
decoding error, `create_report` runs the diagnostic pass — whose at-fault
name set it records — and then re-raises the original failure: the result is
the same `UnicodeDecodeError`, no report string is produced, and the logged
hint is exactly what `debug_bad_encoding` computes. -/
theorem create_report_bad_encoding (s : CoverallsState) (w : World)
    (data : JDict) (s' : CoverallsState) (warn : Bool) (names : List JValue)
    (hdata : create_data s w none = (.ok data, s', warn))
    (hdump : jdumpsE (.obj data) = .error .unicodeDecodeError)
    (hdiag : debug_bad_encoding data = .ok names) :
    create_report s w = ⟨.error .unicodeDecodeError, s', some names, none⟩ := by
  unfold create_report
  rw [hdata]
  simp only [hdump, hdiag]

/-- A world whose coverage output contains a byte string that is not valid
UTF-8. -/
def badW : World :=
  { env := [],
    coverage := .ok [.obj [("name", .str "bad.py"), ("source", .bytes [255]),
      ("coverage", .arr [])]],
    exec := fun _ => ⟨0, [120], []⟩ }

/-- The report assembled in `badW`. -/
def badD0 : JDict :=
  match (create_data cdS0 badW none).1 with
  | .ok d => d
  | .error _ => []

/-- The instance state after assembling the report in `badW`. -/
def badS1 : CoverallsState := (create_data cdS0 badW none).2.1

theorem create_report_bad_encoding_witness :
    create_report cdS0 badW =
      ⟨.error .unicodeDecodeError, badS1, some [.str "bad.py"], none⟩ :=
  create_report_bad_encoding cdS0 badW badD0 badS1 false [.str "bad.py"]
    rfl rfl rfl

theorem scanClose_length (l : List Char) :
    ∀ r, scanClose l = some r → r.length < l.length := by
  induction l with
  | nil => intro r h; simp [scanClose] at h
  | cons c rest ih =>
      intro r h
      simp only [scanClose] at h
      split at h
      · cases h; simp
      · split at h
        · cases h
        · have := ih r h; simp; omega

theorem tryMatch_length (l : List Char) :
    ∀ r, tryMatch l = some r → r.length < l.length := by
  intro r h
  match l with
  | [] => simp [tryMatch] at h
  | c :: rest =>
      simp only [tryMatch] at h
      split at h
      · cases h
      · have := scanClose_length rest r h; simp; omega

theorem redactF_irrel (fuel : Nat) : ∀ (s : List Char) (fuel' : Nat),
    s.length ≤ fuel → s.length ≤ fuel' → redactF fuel s = redactF fuel' s := by
  induction fuel with
  | zero =>
      intro s fuel' h1 _
      have hs : s = [] := List.length_eq_zero.mp (Nat.le_zero.mp h1)
      subst hs
      simp [redactF]
  | succ f ih =>
      intro s fuel' h1 h2
      cases s with
      | nil => simp [redactF]
      | cons c rest =>
          cases fuel' with
          | zero => simp at h2
          | succ f' =>
              have hrest : rest.length ≤ f ∧ rest.length ≤ f' := by
                simp at h1 h2; omega
              simp only [redactF]
              by_cases hp : patChars.isPrefixOf (c :: rest) = true
              · rw [hp, if_pos rfl, if_pos rfl]
                cases hm : tryMatch ((c :: rest).drop patChars.length) with
                | none =>
                    show c :: redactF f rest = c :: redactF f' rest
                    congr 1
                    exact ih rest f' hrest.1 hrest.2
                | some rem =>
                    have hl := tryMatch_length _ rem hm
                    have hpl : patChars.length = 15 := rfl
                    have hd : ((c :: rest).drop patChars.length).length ≤
                        rest.length := by
                      rw [List.length_drop, hpl, List.length_cons]
                      omega
                    show replChars ++ redactF f rem =
                      replChars ++ redactF f' rem
                    congr 1
                    exact ih rem f' (by omega) (by omega)
              · have hp' : patChars.isPrefixOf (c :: rest) = false := by
                  rw [← Bool.not_eq_true]
                  exact hp
                rw [hp']
                simp only [Bool.false_eq_true, if_false]
                congr 1
                exact ih rest f' hrest.1 hrest.2

theorem redact_eq_redactF (s : List Char) (fuel : Nat) (h : s.length ≤ fuel) :
    redact s = redactF fuel s :=
  redactF_irrel s.length s fuel le_rfl h

theorem scanClose_clean (B : List Char) : ∀ t : List Char,
    (∀ c ∈ t, c ≠ '"' ∧ c ≠ '\n') → scanClose (t ++ '"' :: B) = some B := by
  intro t
  induction t with
  | nil => intro _; simp [scanClose]
  | cons c t' ih =>
      intro h
      have hc := h c (List.mem_cons_self c t')
      simp only [List.cons_append, scanClose, hc.1, hc.2, if_false]
      exact ih (fun x hx => h x (List.mem_cons_of_mem c hx))

theorem tryMatch_clean (t B : List Char) (ht : t ≠ [])
    (h : ∀ c ∈ t, c ≠ '"' ∧ c ≠ '\n') :
    tryMatch (t ++ '"' :: B) = some B := by
  cases t with
  | nil => exact absurd rfl ht
  | cons c t' =>
      have hc := h c (List.mem_cons_self c t')
      simp only [List.cons_append, tryMatch, hc.2, if_false]
      exact scanClose_clean B t' (fun x hx => h x (List.mem_cons_of_mem c hx))

theorem isPrefixOf_append_self (l₁ l₂ : List Char) :
    l₁.isPrefixOf (l₁ ++ l₂) = true := by
  rw [List.isPrefixOf_iff_prefix]
  exact List.prefix_append l₁ l₂

theorem patChars_not_prefix_shifted (A X : List Char) (hA : A ≠ [])
    (hno : ¬ patChars <:+: (A ++ patChars.dropLast)) :
    ¬ (patChars.isPrefixOf (A ++ (patChars ++ X)) = true) := by
  intro hp
  rw [List.isPrefixOf_iff_prefix] at hp
  apply hno
  have hAlen : 1 ≤ A.length := by
    cases A with
    | nil => exact absurd rfl hA
    | cons a A' => simp
  have h15 : patChars = (A ++ (patChars ++ X)).take patChars.length :=
    List.prefix_iff_eq_take.mp hp
  have htake : (A ++ (patChars ++ X)).take (A.length + 14) =
      A ++ patChars.dropLast := by
    rw [List.take_append 14,
      List.take_append_of_le_length (by simp [patChars]),
      show patChars.take 14 = patChars.dropLast by decide]
  have hmin : min patChars.length (A.length + 14) = patChars.length := by
    have : patChars.length = 15 := by decide
    omega
  have hpre : patChars <+: (A ++ (patChars ++ X)).take (A.length + 14) := by
    have h1 := List.take_prefix patChars.length
      ((A ++ (patChars ++ X)).take (A.length + 14))
    rwa [List.take_take, hmin, ← h15] at h1
  rw [htake] at hpre
  exact hpre.isInfix

theorem redactF_append_match (f : Nat) (X B : List Char)
    (hmatch : tryMatch X = some B) :
    redactF (f + 1) (patChars ++ X) = replChars ++ redactF f B := by
  have e : patChars ++ X =
      '"' :: (['r', 'e', 'p', 'o', '_', 't', 'o', 'k', 'e', 'n', '"', ':',
        ' ', '"'] ++ X) := rfl
  rw [e]
  simp only [redactF]
  have hp : patChars.isPrefixOf
      ('"' :: (['r', 'e', 'p', 'o', '_', 't', 'o', 'k', 'e', 'n', '"', ':',
        ' ', '"'] ++ X)) = true := by
    rw [← e]
    exact isPrefixOf_append_self patChars X
  rw [hp]
  simp only [if_true]
  rw [show (('"' :: (['r', 'e', 'p', 'o', '_', 't', 'o', 'k', 'e', 'n', '"',
    ':', ' ', '"'] ++ X)).drop patChars.length) = X from rfl]
  rw [hmatch]

theorem redactF_cons_nomatch (f : Nat) (c : Char) (rest : List Char)
    (hp : patChars.isPrefixOf (c :: rest) = false) :
    redactF (f + 1) (c :: rest) = c :: redactF f rest := by
  simp only [redactF, hp, Bool.false_eq_true, if_false]

theorem redactF_at (t B : List Char) (ht : t ≠ [])
    (hclean : ∀ c ∈ t, c ≠ '"' ∧ c ≠ '\n') :
    ∀ (A : List Char) (fuel : Nat),
      ¬ patChars <:+: (A ++ patChars.dropLast) →
      (A ++ (patChars ++ (t ++ '"' :: B))).length ≤ fuel →
      redactF fuel (A ++ (patChars ++ (t ++ '"' :: B))) =
        A ++ (replChars ++ redact B) := by
  intro A
  induction A with
  | nil =>
      intro fuel _ hlen
      rw [List.nil_append] at hlen ⊢
      cases fuel with
      | zero => simp [patChars] at hlen
      | succ f =>
          rw [redactF_append_match f (t ++ '"' :: B) B
            (tryMatch_clean t B ht hclean), List.nil_append]
          congr 1
          have hB : B.length ≤ f := by
            simp [patChars] at hlen
            omega
          exact (redact_eq_redactF B f hB).symm
  | cons a A' ih =>
      intro fuel hno hlen
      cases fuel with
      | zero => simp at hlen
      | succ f =>
          have hp0 := patChars_not_prefix_shifted (a :: A') (t ++ '"' :: B)
            (by simp) hno
          rw [List.cons_append] at hp0 ⊢
          have hp : patChars.isPrefixOf
              (a :: (A' ++ (patChars ++ (t ++ '"' :: B)))) = false := by
            rw [← Bool.not_eq_true]
            exact hp0
          rw [redactF_cons_nomatch f a _ hp]
          have hno' : ¬ patChars <:+: (A' ++ patChars.dropLast) := by
            intro hcontr
            apply hno
            rw [List.cons_append]
            exact List.infix_cons hcontr
          have hlen' : (A' ++ (patChars ++ (t ++ '"' :: B))).length ≤ f := by
            simp at hlen ⊢
            omega
          rw [ih f hno' hlen', List.cons_append]

/-- C5 amended: when the serialized report exposes the repo token as the
pattern occurrence `"repo_token": "<t>"` — token non-empty, serialized
verbatim (no quote or newline), with no earlier pattern occurrence — the
logged string is the same text with that occurrence replaced by
`"repo_token": "[secure]"`, and `[secure]` therefore appears in the log
output.  (The token value itself may still occur elsewhere in the output;
see the counterexample to the original claim.) -/
theorem redact_replaces (d : JDict) (t : String) (A B s : List Char)
    (hmem : ("repo_token", JValue.str t) ∈ d)
    (hdump : jdumpsE (.obj d) = .ok s)
    (hsplit : s = A ++ (patChars ++ (t.toList ++ '"' :: B)))
    (ht : t.toList ≠ [])
    (hclean : ∀ c ∈ t.toList, c ≠ '"' ∧ c ≠ '\n')
    (hA : ¬ patChars <:+: (A ++ patChars.dropLast)) :
    redact s = A ++ (replChars ++ redact B) ∧
      secureChars <:+: redact s := by
  have hmain : redact s = A ++ (replChars ++ redact B) := by
    rw [hsplit]
    exact redactF_at t.toList B ht hclean A
      (A ++ (patChars ++ (t.toList ++ '"' :: B))).length hA le_rfl
  refine ⟨hmain, ?_⟩
  rw [hmain]
  have h1 : secureChars <:+: replChars := by decide
  have h2 : replChars <:+: A ++ (replChars ++ redact B) :=
    ⟨A, redact B, by simp⟩
  exact h1.trans h2

/-- A report whose one-character repo token also occurs in another key. -/
def c5x : JDict := [("repo_token", .str "a"), ("parallel", .bool true)]

/-- Its serialization. -/
def c5xs : List Char :=
  match jdumpsE (.obj c5x) with
  | .ok s => s
  | .error _ => []

/-- C5 counterexample: for the report with `repo_token = "a"` the redacted
log string does contain `[secure]`, but it still contains the token value
`a` (inside `"parallel"`), so the logged string does not "never contain the
token value". -/
theorem redact_claim_cex :
    jdumpsE (.obj c5x) = .ok c5xs ∧ secureChars <:+: redact c5xs ∧
      ['a'] <:+: redact c5xs :=
  ⟨rfl, by decide, by decide⟩

/-- A report with a normal secret token. -/
def c5d : JDict :=
  [("repo_token", .str "abc123"), ("service_name", .str "travis-ci")]

/-- Its serialization. -/
def c5s : List Char :=
  match jdumpsE (.obj c5d) with
  | .ok s => s
  | .error _ => []

/-- The text before the pattern occurrence in `c5s`. -/
def c5A : List Char := [lbrace]

/-- The text after the matched token's closing quote in `c5s`. -/
def c5B : List Char := (", \"service_name\": \"travis-ci\"").toList ++ [rbrace]

theorem redact_replaces_witness :
    redact c5s = c5A ++ (replChars ++ redact c5B) ∧
      secureChars <:+: redact c5s :=
  redact_replaces c5d "abc123" c5A c5B c5s (List.mem_cons_self _ _) rfl
    (by decide) (by decide) (by decide) (by decide)

/-- C2 counterexample: an empty extra-merge payload is supplied and lacks
`source_files`, yet `create_data` logs no warning (the returned warning flag
is `false`): Python's `if extra:` treats the empty dict as absent, so the
claimed "payload lacks source_files ⟹ warning" fails for it. -/
theorem create_data_merge_cex :
    create_data cdS0 cdW0 (some []) = (.ok cdD0, cdS1, false) ∧
      dictContains [] "source_files" = false :=
  ⟨rfl, rfl⟩
